import Mathlib

/-!
# go-simplejson: the dynamic value wrapper

A shallow embedding of `simplejson.go`.  A `Json` wraps one dynamically typed
value (`data interface{}`).  Go maps are reference types, so a map value is an
address into a heap of map objects, and the operations that read or write a
map take the heap as explicit state.  Every fallible accessor returns the Go
pair `(value, error)`, with `none` for a `nil` error, a `nil` map or a `nil`
slice.  The methods are also written as state transformers over the map
objects and the `Json` structs, and related to the functions.
-/

set_option autoImplicit false

namespace SimpleJson

/-! ## Data model -/

/-- Address of a map object (a Go `map[string]interface{}` points to one). -/
abbrev Addr := Nat

/-- The dynamic values held in `Json.data`: the `nil` interface, `bool`,
`json.Number` (the literal text), `string`, `[]interface{}` and
`map[string]interface{}`.  A map value is a reference: the address of a map
object, or `none` for the typed `nil` map, the zero value of the map type,
which a caller can store through `Set`.  A slice value is the list of its
elements, or `none` for the `nil` slice. -/
inductive Value where
  | null : Value
  | bool : Bool → Value
  | number : String → Value
  | string : String → Value
  | array : Option (List Value) → Value
  | map : Option Addr → Value

/-- The entries of one map object. -/
abbrev GoMap := List (String × Value)

/-- The heap: the map object behind every address. -/
abbrev Heap := Addr → GoMap

/-- A Go `error` made by `errors.New`: its message. -/
structure GoError where
  msg : String
deriving DecidableEq, Repr

/-- The wrapper `type Json struct { data interface{} }`. -/
structure Json where
  data : Value

/-- The JSON kinds. -/
inductive Kind where
  | object | array | string | boolean | number | null
deriving DecidableEq, Repr

/-- Kind of a value, by its dynamic type. -/
def kindOf : Value → Kind
  | .null => .null
  | .bool _ => .boolean
  | .number _ => .number
  | .string _ => .string
  | .array _ => .array
  | .map _ => .object

/-! ## Go builtins used by the wrapper -/

/-- Go's `errors.New`. -/
def errors.New (text : String) : GoError := ⟨text⟩

/-- Value stored under `key` in a map object, if there is one. -/
def GoMap.lookup (m : GoMap) (key : String) : Option Value :=
  List.lookup key m

/-- Keys of a map object. -/
def GoMap.keys (m : GoMap) : List String :=
  m.map Prod.fst

/-- Entries of a map object other than the one at `key`. -/
def GoMap.erase (m : GoMap) (key : String) : GoMap :=
  m.filter (fun e => e.1 != key)

/-- Entries of a map object once `key` holds `val`. -/
def GoMap.insert (m : GoMap) (key : String) (val : Value) : GoMap :=
  (key, val) :: m.erase key

/-- The comma-ok read `val, ok := m[key]`; a `nil` map reads as empty. -/
def mapaccess2 (h : Heap) (m : Option Addr) (key : String) : Value × Bool :=
  match m with
  | none => (.null, false)
  | some a =>
    match (h a).lookup key with
    | some val => (val, true)
    | none => (.null, false)

/-- The write `m[key] = val`; `none` is the panic
"assignment to entry in nil map". -/
def mapassign (h : Heap) (m : Option Addr) (key : String) (val : Value) : Option Heap :=
  match m with
  | none => none
  | some a => some (Function.update h a ((h a).insert key val))

/-- The builtin `delete(m, key)`; a no-op on a `nil` map. -/
def mapdelete (h : Heap) (m : Option Addr) (key : String) : Heap :=
  match m with
  | none => h
  | some a => Function.update h a ((h a).erase key)

/-! ## Typed accessors

Qualified by the receiver type, since their Go names are names of Lean types. -/

/-- `Map` type asserts to `map`. -/
def Json.Map (j : Json) : Option Addr × Option GoError :=
  match j.data with
  | .map m => (m, none)
  | _ => (none, some (errors.New "type assertion to map[string]interface{} failed"))

/-- `Array` type asserts to an `array`. -/
def Json.Array (j : Json) : Option (List Value) × Option GoError :=
  match j.data with
  | .array a => (a, none)
  | _ => (none, some (errors.New "type assertion to []interface{} failed"))

/-- The `range` loop of `StringArray` over the remaining elements, `retArr`
being the strings appended so far: `some` of the final `retArr` when the loop
runs to its end, `none` when an element fails `a.(string)` and the loop
returns early. -/
def stringArrayLoop : List Value → List String → Option (List String)
  | [], retArr => some retArr
  | .string s :: rest, retArr => stringArrayLoop rest (retArr ++ [s])
  | _ :: _, _ => none

/-- `StringArray` type asserts to an `array` of `string`.  The early return in
the loop hands back the variable `err`, which is `nil` at that point. -/
def Json.StringArray (j : Json) : Option (List String) × Option GoError :=
  match j.Array with
  | (arr, err) =>
    if err ≠ none then (none, err)
    else
      match stringArrayLoop (arr.getD []) [] with
      | none => (none, err)
      | some retArr => (some retArr, none)

/-- `Bool` type asserts to `bool`. -/
def Json.Bool (j : Json) : Bool × Option GoError :=
  match j.data with
  | .bool s => (s, none)
  | _ => (false, some (errors.New "type assertion to bool failed"))

/-- `String` type asserts to `string`. -/
def Json.String (j : Json) : String × Option GoError :=
  match j.data with
  | .string s => (s, none)
  | _ => ("", some (errors.New "type assertion to string failed"))

/-! ## Navigation and mutation -/

/-- `Get` returns a new wrapper for `key` in the map representation. -/
def Get (h : Heap) (j : Json) (key : String) : Json :=
  match j.Map with
  | (m, err) =>
    if err = none then
      match mapaccess2 h m key with
      | (val, ok) => if ok then ⟨val⟩ else ⟨.null⟩
    else ⟨.null⟩

/-- `Set` modifies the map by `key` and `val`; `none` is a panic. -/
def Set (h : Heap) (j : Json) (key : String) (val : Value) : Option Heap :=
  match j.Map with
  | (m, err) =>
    if err ≠ none then some h
    else mapassign h m key val

/-- `Remove` modifies the map by `key`. -/
def Remove (h : Heap) (j : Json) (key : String) : Heap :=
  match j.Map with
  | (m, err) =>
    if err ≠ none then h
    else mapdelete h m key

/-- `Has` reports whether `key` is in the map. -/
def Has (h : Heap) (j : Json) (key : String) : Bool :=
  match j.Map with
  | (m, err) =>
    if err = none then
      match mapaccess2 h m key with
      | (_, ok) => if ok then true else false
    else false

/-! ## Convenience combinators -/

def GetString (h : Heap) (j : Json) (key : String) : String × Option GoError :=
  if !Has h j key then ("", some (errors.New (key ++ "not existed")))
  else (Get h j key).String

def GetBool (h : Heap) (j : Json) (key : String) : Bool × Option GoError :=
  if !Has h j key then (false, some (errors.New (key ++ "not existed")))
  else (Get h j key).Bool

def GetArray (h : Heap) (j : Json) (key : String) : Option (List Value) × Option GoError :=
  if !Has h j key then (none, some (errors.New (key ++ "not existed")))
  else (Get h j key).Array

def GetMap (h : Heap) (j : Json) (key : String) : Option Addr × Option GoError :=
  if !Has h j key then (none, some (errors.New (key ++ "not existed")))
  else (Get h j key).Map

def GetStringArray (h : Heap) (j : Json) (key : String) :
    Option (List String) × Option GoError :=
  if !Has h j key then (none, some (errors.New (key ++ "not existed")))
  else (Get h j key).StringArray

/-! ## Error kinds -/

/-- Messages of the errors the four type assertions raise. -/
def typeMismatchMessages : List String :=
  ["type assertion to map[string]interface{} failed",
   "type assertion to []interface{} failed",
   "type assertion to bool failed",
   "type assertion to string failed"]

/-- `TypeMismatchError`: the error of a failed type assertion. -/
def IsTypeMismatchError (e : GoError) : Prop :=
  e.msg ∈ typeMismatchMessages

/-- `KeyNotFoundError`: an error whose message is some key followed by
"not existed", as the combinators build it. -/
def IsKeyNotFoundError (e : GoError) : Prop :=
  "not existed".data <:+ e.msg.data

instance (e : GoError) : Decidable (IsTypeMismatchError e) := by
  unfold IsTypeMismatchError; infer_instance

instance (e : GoError) : Decidable (IsKeyNotFoundError e) := by
  unfold IsKeyNotFoundError; infer_instance

/-! ## Construction

The package decodes with `encoding/json`, which it imports; the decoder is a
parameter of the construction functions. -/

/-- A byte buffer, `[]byte`. -/
abbrev Bytes := List UInt8

/-- The conversion `[]byte(s)` of a string constant. -/
def bytesOf (s : String) : Bytes :=
  s.toUTF8.data.toList

/-- The call `Decode(&j.data)` on `json.NewDecoder(bytes.NewBuffer(p))` after
`UseNumber()`: from the heap, the buffer `p` and the current content of
`j.data` it gives the heap with the map objects it allocated, the new content
of `j.data` and the error. -/
abbrev Decoder := Heap → Bytes → Value → Heap × Value × Option GoError

/-- `UnmarshalJSON` decodes `p` into `j.data` and returns the decoder's
error. -/
def UnmarshalJSON (dec : Decoder) (h : Heap) (j : Json) (p : Bytes) :
    Heap × Json × Option GoError :=
  match dec h p j.data with
  | (h', data, err) => (h', ⟨data⟩, err)

/-- `NewJson` returns a new `Json` after unmarshaling `body`, or `nil` and the
error. -/
def NewJson (dec : Decoder) (h : Heap) (body : Bytes) :
    Heap × Option Json × Option GoError :=
  match UnmarshalJSON dec h ⟨.null⟩ body with
  | (h', j, err) =>
    if err ≠ none then (h', none, err)
    else (h', some j, none)

/-- `NewEmptyJson` creates a new empty json: `i, _ := NewJson([]byte("{}"))`. -/
def NewEmptyJson (dec : Decoder) (h : Heap) : Heap × Option Json :=
  match NewJson dec h (bytesOf "{}") with
  | (h', i, _) => (h', i)

/-! ## Chains of calls -/

/-- The chained call `j.Get(k1).Get(k2)...Get(kn)` for the keys `k1..kn`. -/
def getChain (h : Heap) (j : Json) (keys : List String) : Json :=
  keys.foldl (Get h) j

/-! ## The methods as state transformers

The methods once more, with the memory they run on made explicit: the map
objects and the `Json` structs, a method receiving a pointer to its receiver.
Every body is built from the reads, writes and allocations of the source, so
the state it leaves is computed, not stated. -/

/-- Pointer to a `Json` struct (`*Json`). -/
abbrev Ptr := Nat

/-- The memory a method body runs on: the map objects, the field `data` of
the `Json` struct behind every pointer, and the pointer the next allocation
hands out. -/
structure State where
  heap : Heap
  structs : Ptr → Value
  next : Ptr

/-- The state after the allocation `&Json{val}`. -/
def State.alloc (s : State) (val : Value) : State :=
  ⟨s.heap, Function.update s.structs s.next val, s.next + 1⟩

/-- The state `s'` has every map object, and every `Json` struct allocated in
`s`, as `s` has them. -/
def State.keeps (s s' : State) : Prop :=
  s'.heap = s.heap ∧ ∀ q, q < s.next → s'.structs q = s.structs q

/-- A method body: from the state at the call it gives the value returned,
`none` when the body panics, and the state it leaves. -/
def Body (α : Type) : Type := State → Option α × State

/-- The statement `return a`. -/
def Body.ret {α : Type} (a : α) : Body α :=
  fun s => (some a, s)

/-- Two statements in sequence: the second runs on the state the first
leaves, and a panic ends the body. -/
def Body.seq {α β : Type} (x : Body α) (f : α → Body β) : Body β :=
  fun s =>
    match x s with
    | (some a, s') => f a s'
    | (none, s') => (none, s')

instance : Monad Body where
  pure := Body.ret
  bind := Body.seq

/-- The read of the field `j.data` of the struct at `j`. -/
def Body.loadData (j : Ptr) : Body Value :=
  fun s => (some (s.structs j), s)

/-- The allocation `&Json{val}`, which returns the new pointer. -/
def Body.newJson (val : Value) : Body Ptr :=
  fun s => (some s.next, s.alloc val)

/-- The read `val, ok := m[key]`. -/
def Body.mapRead (m : Option Addr) (key : String) : Body (Value × Bool) :=
  fun s => (some (mapaccess2 s.heap m key), s)

/-- The write `m[key] = val`, which panics on a `nil` map before it writes. -/
def Body.mapWrite (m : Option Addr) (key : String) (val : Value) : Body Unit :=
  fun s =>
    match mapassign s.heap m key val with
    | some h' => (some (), ⟨h', s.structs, s.next⟩)
    | none => (none, s)

/-- The write `delete(m, key)`. -/
def Body.mapDelete (m : Option Addr) (key : String) : Body Unit :=
  fun s => (some (), ⟨mapdelete s.heap m key, s.structs, s.next⟩)

/-- Body of `Map`. -/
def MapBody (j : Ptr) : Body (Option Addr × Option GoError) := do
  let d ← Body.loadData j
  match d with
  | .map m => pure (m, none)
  | _ => pure (none, some (errors.New "type assertion to map[string]interface{} failed"))

/-- Body of `Array`. -/
def ArrayBody (j : Ptr) : Body (Option (List Value) × Option GoError) := do
  let d ← Body.loadData j
  match d with
  | .array a => pure (a, none)
  | _ => pure (none, some (errors.New "type assertion to []interface{} failed"))

/-- Body of `StringArray`. -/
def StringArrayBody (j : Ptr) : Body (Option (List String) × Option GoError) := do
  let (arr, err) ← ArrayBody j
  if err ≠ none then pure (none, err)
  else
    match stringArrayLoop (arr.getD []) [] with
    | none => pure (none, err)
    | some retArr => pure (some retArr, none)

/-- Body of `Bool`. -/
def BoolBody (j : Ptr) : Body (Bool × Option GoError) := do
  let d ← Body.loadData j
  match d with
  | .bool b => pure (b, none)
  | _ => pure (false, some (errors.New "type assertion to bool failed"))

/-- Body of `String`. -/
def StringBody (j : Ptr) : Body (String × Option GoError) := do
  let d ← Body.loadData j
  match d with
  | .string str => pure (str, none)
  | _ => pure ("", some (errors.New "type assertion to string failed"))

/-- Body of `Get`. -/
def GetBody (j : Ptr) (key : String) : Body Ptr := do
  let (m, err) ← MapBody j
  if err = none then
    let (val, ok) ← Body.mapRead m key
    if ok then Body.newJson val else Body.newJson .null
  else Body.newJson .null

/-- Body of `Set`. -/
def SetBody (j : Ptr) (key : String) (val : Value) : Body Unit := do
  let (m, err) ← MapBody j
  if err ≠ none then pure ()
  else Body.mapWrite m key val

/-- Body of `Remove`. -/
def RemoveBody (j : Ptr) (key : String) : Body Unit := do
  let (m, err) ← MapBody j
  if err ≠ none then pure ()
  else Body.mapDelete m key

/-- Body of `Has`. -/
def HasBody (j : Ptr) (key : String) : Body Bool := do
  let (m, err) ← MapBody j
  if err = none then
    let (_, ok) ← Body.mapRead m key
    if ok then pure true else pure false
  else pure false

/-- Body of `GetString`. -/
def GetStringBody (j : Ptr) (key : String) : Body (String × Option GoError) := do
  let has ← HasBody j key
  if !has then pure ("", some (errors.New (key ++ "not existed")))
  else
    let c ← GetBody j key
    StringBody c

/-- Body of `GetBool`. -/
def GetBoolBody (j : Ptr) (key : String) : Body (Bool × Option GoError) := do
  let has ← HasBody j key
  if !has then pure (false, some (errors.New (key ++ "not existed")))
  else
    let c ← GetBody j key
    BoolBody c

/-- Body of `GetArray`. -/
def GetArrayBody (j : Ptr) (key : String) :
    Body (Option (List Value) × Option GoError) := do
  let has ← HasBody j key
  if !has then pure (none, some (errors.New (key ++ "not existed")))
  else
    let c ← GetBody j key
    ArrayBody c

/-- Body of `GetMap`. -/
def GetMapBody (j : Ptr) (key : String) : Body (Option Addr × Option GoError) := do
  let has ← HasBody j key
  if !has then pure (none, some (errors.New (key ++ "not existed")))
  else
    let c ← GetBody j key
    MapBody c

/-- Body of `GetStringArray`. -/
def GetStringArrayBody (j : Ptr) (key : String) :
    Body (Option (List String) × Option GoError) := do
  let has ← HasBody j key
  if !has then pure (none, some (errors.New (key ++ "not existed")))
  else
    let c ← GetBody j key
    StringArrayBody c

/-! ## Lemmas on map objects and errors -/

theorem isKeyNotFoundError_iff (e : GoError) :
    IsKeyNotFoundError e ↔ ∃ key : String, e = errors.New (key ++ "not existed") := by
  constructor
  · rintro ⟨t, ht⟩
    refine ⟨⟨t⟩, ?_⟩
    cases e with
    | mk msg =>
      simp only [errors.New, GoError.mk.injEq]
      apply String.ext
      simpa using ht.symm
  · rintro ⟨key, rfl⟩
    exact ⟨key.data, by simp [errors.New]⟩

theorem isKeyNotFoundError_new (key : String) :
    IsKeyNotFoundError (errors.New (key ++ "not existed")) :=
  (isKeyNotFoundError_iff _).2 ⟨key, rfl⟩

theorem GoMap.lookup_insert_self (m : GoMap) (key : String) (val : Value) :
    (m.insert key val).lookup key = some val := by
  simp [GoMap.insert, GoMap.lookup, List.lookup]

theorem GoMap.lookup_cons (k : String) (v : Value) (rest : GoMap) (key : String) :
    GoMap.lookup ((k, v) :: rest) key = if key = k then some v else GoMap.lookup rest key := by
  by_cases hk : key = k
  · simp [GoMap.lookup, List.lookup, hk]
  · have hb : (key == k) = false := by simpa using hk
    simp [GoMap.lookup, List.lookup, hk, hb]

theorem GoMap.lookup_erase_self (m : GoMap) (key : String) :
    (m.erase key).lookup key = none := by
  induction m with
  | nil => rfl
  | cons e rest ih =>
    obtain ⟨k, v⟩ := e
    have ih2 : GoMap.lookup (List.filter (fun e => e.1 != key) rest) key = none := ih
    by_cases hk : k = key
    · simp only [GoMap.erase, List.filter_cons, hk, bne_self_eq_false]
      exact ih2
    · have hk2 : ¬ key = k := fun hh => hk hh.symm
      have hb : (k != key) = true := by simpa using hk
      simp only [GoMap.erase, List.filter_cons, hb, if_true]
      rw [GoMap.lookup_cons, if_neg hk2]
      exact ih2

theorem GoMap.lookup_eq_none_iff (m : GoMap) (key : String) :
    m.lookup key = none ↔ key ∉ m.keys := by
  induction m with
  | nil => simp [GoMap.lookup, GoMap.keys]
  | cons e rest ih =>
    obtain ⟨k, v⟩ := e
    have hkeys : GoMap.keys ((k, v) :: rest) = k :: GoMap.keys rest := rfl
    rw [GoMap.lookup_cons, hkeys, List.mem_cons, not_or, ← ih]
    by_cases hk : key = k
    · simp [hk]
    · simp [hk]

theorem GoMap.lookup_isSome_iff (m : GoMap) (key : String) :
    (m.lookup key).isSome = true ↔ key ∈ m.keys := by
  rw [← not_iff_not, ← GoMap.lookup_eq_none_iff]
  cases m.lookup key <;> simp

theorem Has_map (h : Heap) (a : Addr) (key : String) :
    Has h ⟨.map (some a)⟩ key = (GoMap.lookup (h a) key).isSome := by
  unfold Has Json.Map mapaccess2
  cases hl : GoMap.lookup (h a) key <;> simp [hl]

theorem Get_map (h : Heap) (a : Addr) (key : String) :
    Get h ⟨.map (some a)⟩ key = ⟨(GoMap.lookup (h a) key).getD .null⟩ := by
  unfold Get Json.Map mapaccess2
  cases hl : GoMap.lookup (h a) key <;> simp [hl]

theorem Has_not_object (h : Heap) (j : Json) (key : String)
    (hk : kindOf j.data ≠ .object) : Has h j key = false := by
  obtain ⟨d⟩ := j
  cases d <;> simp_all [Has, Json.Map, kindOf, errors.New]

theorem Get_not_object (h : Heap) (j : Json) (key : String)
    (hk : kindOf j.data ≠ .object) : Get h j key = ⟨.null⟩ := by
  obtain ⟨d⟩ := j
  cases d <;> simp_all [Get, Json.Map, kindOf, errors.New]

theorem stringArrayLoop_nonString (xs : List Value) (retArr : List String)
    (hx : ∃ x ∈ xs, ∀ s, x ≠ .string s) : stringArrayLoop xs retArr = none := by
  induction xs generalizing retArr with
  | nil => simp at hx
  | cons x rest ih =>
    cases x with
    | string s =>
      obtain ⟨y, hy, hns⟩ := hx
      rcases List.mem_cons.1 hy with rfl | hmem
      · exact absurd rfl (hns s)
      · simpa [stringArrayLoop] using ih _ ⟨y, hmem, hns⟩
    | _ => simp [stringArrayLoop]

theorem Set_map (h : Heap) (a : Addr) (key : String) (val : Value) :
    Set h ⟨.map (some a)⟩ key val = some (Function.update h a (GoMap.insert (h a) key val)) := by
  simp [Set, Json.Map, mapassign]

theorem Remove_map (h : Heap) (a : Addr) (key : String) :
    Remove h ⟨.map (some a)⟩ key = Function.update h a (GoMap.erase (h a) key) := by
  simp [Remove, Json.Map, mapdelete]

theorem Set_not_object (h : Heap) (j : Json) (key : String) (val : Value)
    (hk : kindOf j.data ≠ .object) : Set h j key val = some h := by
  obtain ⟨d⟩ := j
  cases d <;> simp_all [Set, Json.Map, kindOf, errors.New]

theorem Remove_not_object (h : Heap) (j : Json) (key : String)
    (hk : kindOf j.data ≠ .object) : Remove h j key = h := by
  obtain ⟨d⟩ := j
  cases d <;> simp_all [Remove, Json.Map, kindOf, errors.New]

theorem Has_nil_map (h : Heap) (key : String) : Has h ⟨.map none⟩ key = false := rfl

theorem Get_nil_map (h : Heap) (key : String) : Get h ⟨.map none⟩ key = ⟨.null⟩ := rfl

theorem Set_nil_map (h : Heap) (key : String) (val : Value) :
    Set h ⟨.map none⟩ key val = none := rfl

theorem Remove_nil_map (h : Heap) (key : String) : Remove h ⟨.map none⟩ key = h := rfl

theorem Has_eq_true_iff (h : Heap) (j : Json) (key : String) :
    Has h j key = true ↔ ∃ a, j.data = .map (some a) ∧ key ∈ GoMap.keys (h a) := by
  obtain ⟨d⟩ := j
  cases d with
  | map m =>
    cases m with
    | none => simp [Has_nil_map]
    | some a =>
      rw [Has_map, GoMap.lookup_isSome_iff]
      simp
  | _ =>
    rw [Has_not_object h _ key (by simp [kindOf])]
    simp

theorem Get_of_not_Has (h : Heap) (j : Json) (key : String)
    (hk : Has h j key = false) : Get h j key = ⟨.null⟩ := by
  obtain ⟨d⟩ := j
  cases d with
  | map m =>
    cases m with
    | none => rfl
    | some a =>
      rw [Has_map] at hk
      rw [Get_map]
      cases hl : GoMap.lookup (h a) key <;> simp_all
  | _ => exact Get_not_object h _ key (by simp [kindOf])

theorem typeMismatch_not_keyNotFound (e : GoError) (he : IsTypeMismatchError e) :
    ¬ IsKeyNotFoundError e := by
  obtain ⟨msg⟩ := e
  simp only [IsTypeMismatchError, typeMismatchMessages, List.mem_cons, List.mem_singleton,
    List.not_mem_nil, or_false] at he
  rcases he with rfl | rfl | rfl | rfl <;> decide

/-! ## Typed extraction -/

/-- C1, as the code runs it: on every wrapper over an array with at least one
element that is not a string, `StringArray` returns the pair `(nil, nil)`.  The
early return of the loop hands back `err`, which is `nil` at that point, so the
error is `nil` and no `TypeMismatchError` is reported. -/
theorem StringArray_nonString_returns_nil_error (xs : List Value)
    (hx : ∃ x ∈ xs, ∀ s, x ≠ .string s) :
    Json.StringArray ⟨.array (some xs)⟩ = (none, none) := by
  simp [Json.StringArray, Json.Array, stringArrayLoop_nonString xs [] hx]

/-- The array `["a","b",3]`: its last element is not a string and
`StringArray` returns `(nil, nil)`. -/
theorem StringArray_nonString_returns_nil_error_witness :
    (∃ x ∈ [Value.string "a", .string "b", .number "3"], ∀ s, x ≠ .string s) ∧
    Json.StringArray ⟨.array (some [.string "a", .string "b", .number "3"])⟩ = (none, none) :=
  ⟨⟨.number "3", by simp, by simp⟩,
   StringArray_nonString_returns_nil_error _ ⟨.number "3", by simp, by simp⟩⟩

/-- C5. Each of `Map`, `Array`, `Bool` and `String` returns a `nil` error
exactly when the data is of the expected kind (object, array, boolean, string);
it then returns the underlying value itself, and otherwise it returns the zero
value with the `TypeMismatchError` whose message names the expected Go type.
Nothing is coerced: `String` on a number or on `true` and `Bool` on the string
"true" return an error. -/
theorem typed_accessors_check_kind (j : Json) :
    (((j.Map).2 = none ↔ kindOf j.data = .object) ∧
      (∀ m, j.data = .map m → j.Map = (m, none)) ∧
      (kindOf j.data ≠ .object → j.Map =
        (none, some (errors.New "type assertion to map[string]interface{} failed")))) ∧
    (((j.Array).2 = none ↔ kindOf j.data = .array) ∧
      (∀ a, j.data = .array a → j.Array = (a, none)) ∧
      (kindOf j.data ≠ .array → j.Array =
        (none, some (errors.New "type assertion to []interface{} failed")))) ∧
    (((j.Bool).2 = none ↔ kindOf j.data = .boolean) ∧
      (∀ b, j.data = .bool b → j.Bool = (b, none)) ∧
      (kindOf j.data ≠ .boolean → j.Bool =
        (false, some (errors.New "type assertion to bool failed")))) ∧
    (((j.String).2 = none ↔ kindOf j.data = .string) ∧
      (∀ s, j.data = .string s → j.String = (s, none)) ∧
      (kindOf j.data ≠ .string → j.String =
        ("", some (errors.New "type assertion to string failed")))) ∧
    (IsTypeMismatchError (errors.New "type assertion to map[string]interface{} failed") ∧
      IsTypeMismatchError (errors.New "type assertion to []interface{} failed") ∧
      IsTypeMismatchError (errors.New "type assertion to bool failed") ∧
      IsTypeMismatchError (errors.New "type assertion to string failed")) ∧
    ((∀ n, (Json.String ⟨.number n⟩).2 ≠ none) ∧
      (Json.String ⟨.bool true⟩).2 ≠ none ∧
      (Json.Bool ⟨.string "true"⟩).2 ≠ none) := by
  obtain ⟨d⟩ := j
  refine ⟨?_, ?_, ?_, ?_, ?_, ?_⟩
  · cases d <;> simp [Json.Map, kindOf]
  · cases d <;> simp [Json.Array, kindOf]
  · cases d <;> simp [Json.Bool, kindOf]
  · cases d <;> simp [Json.String, kindOf]
  · decide
  · simp [Json.String, Json.Bool]

/-- The accessors on a wrapper over the number 12: all four return their
`TypeMismatchError`. -/
theorem typed_accessors_check_kind_witness :
    Json.Map ⟨.number "12"⟩ =
      (none, some (errors.New "type assertion to map[string]interface{} failed")) ∧
    Json.Array ⟨.number "12"⟩ =
      (none, some (errors.New "type assertion to []interface{} failed")) ∧
    Json.Bool ⟨.number "12"⟩ = (false, some (errors.New "type assertion to bool failed")) ∧
    Json.String ⟨.number "12"⟩ = ("", some (errors.New "type assertion to string failed")) :=
  have hc := typed_accessors_check_kind ⟨.number "12"⟩
  ⟨hc.1.2.2 (by decide), hc.2.1.2.2 (by decide), hc.2.2.1.2.2 (by decide),
    hc.2.2.2.1.2.2 (by decide)⟩

/-! ## Navigation -/

/-- C3. `Get` is a total function of the heap, the wrapper and the key.  When
the data is an object that holds `key`, the wrapper it returns holds the value
of that entry; when the data is an object without `key`, and when the data is
not an object (array, string, boolean, number or null), it returns the wrapper
over `nil`; the `nil` map is an object without any key. -/
theorem Get_entry_or_null (h : Heap) (j : Json) (key : String) :
    (∀ a val, j.data = .map (some a) → GoMap.lookup (h a) key = some val →
      Get h j key = ⟨val⟩) ∧
    (∀ a, j.data = .map (some a) → key ∉ GoMap.keys (h a) → Get h j key = ⟨.null⟩) ∧
    (kindOf j.data ≠ .object → Get h j key = ⟨.null⟩) ∧
    (j.data = .map none → Get h j key = ⟨.null⟩) := by
  obtain ⟨d⟩ := j
  refine ⟨?_, ?_, Get_not_object h ⟨d⟩ key, ?_⟩
  · rintro a val rfl hl
    rw [Get_map, hl]; rfl
  · rintro a rfl hk
    rw [Get_map, (GoMap.lookup_eq_none_iff _ _).2 hk]; rfl
  · rintro rfl
    rfl

/-- The object with "name" bound to "Ada", read at "name". -/
theorem Get_entry_or_null_witness :
    Get (fun _ => [("name", .string "Ada")]) ⟨.map (some 0)⟩ "name" = ⟨.string "Ada"⟩ :=
  (Get_entry_or_null (fun _ => [("name", .string "Ada")]) ⟨.map (some 0)⟩ "name").1 0 _ rfl rfl

/-- C4. `Has` is true exactly when the data is an object and `key` is one of
its keys, whatever value is stored there: it is true for an entry whose value
is the explicit null, and false for every key when the data is not an
object. -/
theorem Has_iff_object_with_key (h : Heap) (j : Json) (key : String) :
    (Has h j key = true ↔ ∃ a, j.data = .map (some a) ∧ key ∈ GoMap.keys (h a)) ∧
    (∀ a, j.data = .map (some a) → GoMap.lookup (h a) key = some .null → Has h j key = true) ∧
    (kindOf j.data ≠ .object → ∀ k, Has h j k = false) := by
  obtain ⟨d⟩ := j
  refine ⟨Has_eq_true_iff h ⟨d⟩ key, ?_, fun hk k => Has_not_object h ⟨d⟩ k hk⟩
  rintro a rfl hl
  rw [Has_map, hl]; rfl

/-- The object with "k" bound to the explicit null: `Has` is true at "k". -/
theorem Has_iff_object_with_key_witness :
    Has (fun _ => [("k", .null)]) ⟨.map (some 0)⟩ "k" = true :=
  (Has_iff_object_with_key (fun _ => [("k", .null)]) ⟨.map (some 0)⟩ "k").2.1 0 rfl rfl

/-! ## Existence check, then extraction -/

/-- Each of `GetString`, `GetBool`, `GetArray`, `GetMap` and `GetStringArray`
checks the key and then delegates: when `Has` is false it returns the zero
value with the `KeyNotFoundError` built from the key and "not existed"; when
`Has` is true it returns exactly the pair `(value, error)` of the typed
accessor applied to `Get`.  So a key that is present with a value whose
dynamic type is not the asserted one (the explicit null is one such value)
yields a `TypeMismatchError`, which is not a `KeyNotFoundError`. -/
theorem combinators_check_key_then_delegate (h : Heap) (j : Json) (key : String) :
    (Has h j key = false →
      GetString h j key = ("", some (errors.New (key ++ "not existed"))) ∧
      GetBool h j key = (false, some (errors.New (key ++ "not existed"))) ∧
      GetArray h j key = (none, some (errors.New (key ++ "not existed"))) ∧
      GetMap h j key = (none, some (errors.New (key ++ "not existed"))) ∧
      GetStringArray h j key = (none, some (errors.New (key ++ "not existed"))) ∧
      IsKeyNotFoundError (errors.New (key ++ "not existed"))) ∧
    (Has h j key = true →
      GetString h j key = (Get h j key).String ∧
      GetBool h j key = (Get h j key).Bool ∧
      GetArray h j key = (Get h j key).Array ∧
      GetMap h j key = (Get h j key).Map ∧
      GetStringArray h j key = (Get h j key).StringArray) ∧
    (Has h j key = true →
      (kindOf (Get h j key).data ≠ .string →
        ∃ e, (GetString h j key).2 = some e ∧ IsTypeMismatchError e ∧ ¬ IsKeyNotFoundError e) ∧
      (kindOf (Get h j key).data ≠ .boolean →
        ∃ e, (GetBool h j key).2 = some e ∧ IsTypeMismatchError e ∧ ¬ IsKeyNotFoundError e) ∧
      (kindOf (Get h j key).data ≠ .array →
        ∃ e, (GetArray h j key).2 = some e ∧ IsTypeMismatchError e ∧ ¬ IsKeyNotFoundError e) ∧
      (kindOf (Get h j key).data ≠ .object →
        ∃ e, (GetMap h j key).2 = some e ∧ IsTypeMismatchError e ∧ ¬ IsKeyNotFoundError e) ∧
      (kindOf (Get h j key).data ≠ .array →
        ∃ e, (GetStringArray h j key).2 = some e ∧ IsTypeMismatchError e ∧
          ¬ IsKeyNotFoundError e)) := by
  refine ⟨fun hk => ?_, fun hk => ?_, fun hk => ?_⟩
  · simp [GetString, GetBool, GetArray, GetMap, GetStringArray, hk, isKeyNotFoundError_new]
  · simp [GetString, GetBool, GetArray, GetMap, GetStringArray, hk]
  · simp only [GetString, GetBool, GetArray, GetMap, GetStringArray, hk]
    generalize Get h j key = c
    obtain ⟨d⟩ := c
    refine ⟨fun hd => ?_, fun hd => ?_, fun hd => ?_, fun hd => ?_, fun hd => ?_⟩
    · refine ⟨errors.New "type assertion to string failed", ?_, by decide, by decide⟩
      cases d <;> simp_all [Json.String, kindOf]
    · refine ⟨errors.New "type assertion to bool failed", ?_, by decide, by decide⟩
      cases d <;> simp_all [Json.Bool, kindOf]
    · refine ⟨errors.New "type assertion to []interface{} failed", ?_, by decide, by decide⟩
      cases d <;> simp_all [Json.Array, kindOf]
    · refine ⟨errors.New "type assertion to map[string]interface{} failed", ?_,
        by decide, by decide⟩
      cases d <;> simp_all [Json.Map, kindOf]
    · refine ⟨errors.New "type assertion to []interface{} failed", ?_, by decide, by decide⟩
      cases d <;> simp_all [Json.StringArray, Json.Array, kindOf, errors.New]

/-- C2, as the code runs it: when the key is present and its value is an array
with an element that is not a string, `GetStringArray` delegates to
`StringArray`, whose loop returns early with the `nil` variable `err`; the
combinator returns `(nil, nil)`, so its error is `nil` and it reports neither a
`TypeMismatchError` nor a `KeyNotFoundError`. -/
theorem GetStringArray_nonString_returns_nil_error (h : Heap) (j : Json) (a : Addr)
    (key : String) (xs : List Value) (hj : j.data = .map (some a))
    (hk : GoMap.lookup (h a) key = some (.array (some xs)))
    (hx : ∃ x ∈ xs, ∀ s, x ≠ .string s) :
    Has h j key = true ∧ Get h j key = ⟨.array (some xs)⟩ ∧
    GetStringArray h j key = (none, none) ∧
    ¬ ∃ e, (GetStringArray h j key).2 = some e ∧ IsTypeMismatchError e := by
  obtain ⟨d⟩ := j
  subst hj
  have hhas : Has h ⟨.map (some a)⟩ key = true := by rw [Has_map, hk]; rfl
  have hget : Get h ⟨.map (some a)⟩ key = ⟨.array (some xs)⟩ := by rw [Get_map, hk]; rfl
  have hres : GetStringArray h ⟨.map (some a)⟩ key = (none, none) := by
    rw [((combinators_check_key_then_delegate h ⟨.map (some a)⟩ key).2.1 hhas).2.2.2.2, hget]
    simp [Json.StringArray, Json.Array, stringArrayLoop_nonString xs [] hx]
  refine ⟨hhas, hget, hres, ?_⟩
  rw [hres]
  rintro ⟨e, he, _⟩
  cases he

/-- The object with "k" bound to `["a", 3]`, read with `GetStringArray`. -/
theorem GetStringArray_nonString_returns_nil_error_witness :
    (⟨.map (some 0)⟩ : Json).data = .map (some 0) ∧
    GoMap.lookup ((fun _ => [("k", .array (some [.string "a", .number "3"]))] : Heap) 0) "k"
      = some (.array (some [.string "a", .number "3"])) ∧
    (∃ x ∈ [Value.string "a", .number "3"], ∀ s, x ≠ .string s) ∧
    (Has (fun _ => [("k", .array (some [.string "a", .number "3"]))]) ⟨.map (some 0)⟩ "k" = true ∧
      Get (fun _ => [("k", .array (some [.string "a", .number "3"]))]) ⟨.map (some 0)⟩ "k"
        = ⟨.array (some [.string "a", .number "3"])⟩ ∧
      GetStringArray (fun _ => [("k", .array (some [.string "a", .number "3"]))]) ⟨.map (some 0)⟩ "k"
        = (none, none) ∧
      ¬ ∃ e, (GetStringArray (fun _ => [("k", .array (some [.string "a", .number "3"]))])
          ⟨.map (some 0)⟩ "k").2 = some e ∧ IsTypeMismatchError e) :=
  ⟨rfl, rfl, ⟨.number "3", by simp, by simp⟩,
    GetStringArray_nonString_returns_nil_error
      (fun _ => [("k", .array (some [.string "a", .number "3"]))]) ⟨.map (some 0)⟩ 0 "k"
      [.string "a", .number "3"] rfl rfl ⟨.number "3", by simp, by simp⟩⟩

/-- C10. When `Has` is false for `key` (the key is missing, or the receiver is
not an object), `String` on the wrapper `Get` returns gives the empty string
together with a non-nil error, the `TypeMismatchError` of the string
assertion, which is not a `KeyNotFoundError`. -/
theorem String_of_Get_missing_key (h : Heap) (j : Json) (key : String)
    (hk : Has h j key = false) :
    ∃ e, (Get h j key).String = ("", some e) ∧
      e = errors.New "type assertion to string failed" ∧
      IsTypeMismatchError e ∧ ¬ IsKeyNotFoundError e := by
  refine ⟨errors.New "type assertion to string failed", ?_, rfl, by decide, by decide⟩
  rw [Get_of_not_Has h j key hk]
  rfl

/-- The empty object read at "missing". -/
theorem String_of_Get_missing_key_witness :
    Has (fun _ => []) ⟨.map (some 0)⟩ "missing" = false ∧
    ∃ e, (Get (fun _ => []) ⟨.map (some 0)⟩ "missing").String = ("", some e) ∧
      e = errors.New "type assertion to string failed" ∧
      IsTypeMismatchError e ∧ ¬ IsKeyNotFoundError e :=
  ⟨by decide, String_of_Get_missing_key _ _ _ (by decide)⟩

/-! ## Mutation -/

/-- C6 as stated fails on the typed `nil` map.  `Map()` succeeds on it with a
`nil` error, so the data is an object, and `Set` panics at `m[key] = val`:
there is no state after `Set` in which `Has` is true. -/
theorem Has_after_Set_nil_map_counterexample :
    Json.Map ⟨.map none⟩ = (none, none) ∧
    kindOf (⟨.map none⟩ : Json).data = .object ∧
    Set (fun _ => []) ⟨.map none⟩ "k" (.bool true) = none ∧
    ¬ ∃ h', Set (fun _ => []) ⟨.map none⟩ "k" (.bool true) = some h' ∧
      Has h' ⟨.map none⟩ "k" = true := by
  refine ⟨rfl, rfl, rfl, ?_⟩
  rintro ⟨h', hs, _⟩
  cases hs

/-- C6, amended. On a wrapper whose data is an object other than the `nil`
map, `Set` does not panic and `Has` is true for the key in the heap it leaves,
for every key and value. -/
theorem Has_after_Set (h : Heap) (j : Json) (a : Addr) (key : String) (val : Value)
    (hj : j.data = .map (some a)) :
    ∃ h', Set h j key val = some h' ∧ Has h' j key = true := by
  obtain ⟨d⟩ := j
  subst hj
  refine ⟨_, Set_map h a key val, ?_⟩
  rw [Has_map, Function.update_same, GoMap.lookup_insert_self]
  rfl

/-- Setting "k" on the empty object. -/
theorem Has_after_Set_witness :
    (⟨.map (some 0)⟩ : Json).data = .map (some 0) ∧
    ∃ h', Set (fun _ => []) ⟨.map (some 0)⟩ "k" (.string "v") = some h' ∧
      Has h' ⟨.map (some 0)⟩ "k" = true :=
  ⟨rfl, Has_after_Set _ _ _ _ _ rfl⟩

/-- C7 as stated fails on the typed `nil` map, which is an object for `Map()`:
`Set` panics on it, so no `Get` after `Set` holds the value; read before or
after, `Get` gives the wrapper over `nil`. -/
theorem Get_after_Set_nil_map_counterexample :
    (Json.Map ⟨.map none⟩).2 = none ∧
    Set (fun _ => []) ⟨.map none⟩ "k" (.string "v") = none ∧
    Get (fun _ => []) ⟨.map none⟩ "k" = ⟨.null⟩ ∧
    ¬ ∃ h', Set (fun _ => []) ⟨.map none⟩ "k" (.string "v") = some h' ∧
      Get h' ⟨.map none⟩ "k" = ⟨.string "v"⟩ := by
  refine ⟨rfl, rfl, rfl, ?_⟩
  rintro ⟨h', hs, _⟩
  cases hs

/-- C7, amended. On a wrapper whose data is an object other than the `nil`
map, after `Set` of `key` to `val` the wrapper `Get` returns for `key` holds
exactly `val`, whatever the map held before (the key absent, or present with
another value); and after two `Set`s of the same key it holds the second
value. -/
theorem Get_after_Set (h : Heap) (j : Json) (a : Addr) (key : String) (val : Value)
    (hj : j.data = .map (some a)) :
    (∃ h', Set h j key val = some h' ∧ Get h' j key = ⟨val⟩) ∧
    (∀ v2, ∃ h1 h2, Set h j key val = some h1 ∧ Set h1 j key v2 = some h2 ∧
      Get h2 j key = ⟨v2⟩) := by
  obtain ⟨d⟩ := j
  subst hj
  have key_fact : ∀ (g : Heap) (v : Value), ∃ g', Set g ⟨.map (some a)⟩ key v = some g' ∧
      Get g' ⟨.map (some a)⟩ key = ⟨v⟩ := by
    intro g v
    refine ⟨_, Set_map g a key v, ?_⟩
    rw [Get_map, Function.update_same, GoMap.lookup_insert_self]
    rfl
  refine ⟨key_fact h val, fun v2 => ?_⟩
  obtain ⟨h1, hs1, _⟩ := key_fact h val
  obtain ⟨h2, hs2, hg2⟩ := key_fact h1 v2
  exact ⟨h1, h2, hs1, hs2, hg2⟩

/-- Overwriting the entry "k" of the object with "k" bound to true. -/
theorem Get_after_Set_witness :
    (⟨.map (some 0)⟩ : Json).data = .map (some 0) ∧
    ((∃ h', Set (fun _ => [("k", .bool true)]) ⟨.map (some 0)⟩ "k" (.string "v") = some h' ∧
        Get h' ⟨.map (some 0)⟩ "k" = ⟨.string "v"⟩) ∧
      (∀ v2, ∃ h1 h2, Set (fun _ => [("k", .bool true)]) ⟨.map (some 0)⟩ "k" (.string "v") = some h1 ∧
        Set h1 ⟨.map (some 0)⟩ "k" v2 = some h2 ∧ Get h2 ⟨.map (some 0)⟩ "k" = ⟨v2⟩)) :=
  ⟨rfl, Get_after_Set _ _ _ _ _ rfl⟩

/-- C8. On a wrapper whose data is an object that holds `key`, after `Remove`
of `key` `Has` is false for it and `Get` returns the wrapper over `nil`. -/
theorem not_Has_after_Remove (h : Heap) (j : Json) (a : Addr) (key : String)
    (hj : j.data = .map (some a)) (_hk : key ∈ GoMap.keys (h a)) :
    Has (Remove h j key) j key = false ∧ Get (Remove h j key) j key = ⟨.null⟩ := by
  obtain ⟨d⟩ := j
  subst hj
  have hh : Has (Remove h ⟨.map (some a)⟩ key) ⟨.map (some a)⟩ key = false := by
    rw [Remove_map, Has_map, Function.update_same, GoMap.lookup_erase_self]
    rfl
  exact ⟨hh, Get_of_not_Has _ _ _ hh⟩

/-- Removing "k" from the object with "k" bound to true. -/
theorem not_Has_after_Remove_witness :
    (⟨.map (some 0)⟩ : Json).data = .map (some 0) ∧
    "k" ∈ GoMap.keys [("k", .bool true)] ∧
    Has (Remove (fun _ => [("k", .bool true)]) ⟨.map (some 0)⟩ "k") ⟨.map (some 0)⟩ "k" = false ∧
    Get (Remove (fun _ => [("k", .bool true)]) ⟨.map (some 0)⟩ "k") ⟨.map (some 0)⟩ "k" = ⟨.null⟩ :=
  ⟨rfl, by decide, not_Has_after_Remove (fun _ => [("k", .bool true)]) _ _ _ rfl (by decide)⟩

/-- C9. On a wrapper whose data is not an object (array, string, boolean,
number or null), `Set` and `Remove` return without a panic and leave the heap,
hence every value, exactly as it was; `Has` is false for the key before and
after, and the typed accessors, which read only the wrapper, give the same
results. -/
theorem Set_Remove_noop_on_non_object (h : Heap) (j : Json) (key : String) (val : Value)
    (hj : kindOf j.data ≠ .object) :
    Set h j key val = some h ∧ Remove h j key = h ∧
    (∀ h', Set h j key val = some h' → Has h' j key = false) ∧
    Has (Remove h j key) j key = false := by
  have hs := Set_not_object h j key val hj
  have hr := Remove_not_object h j key hj
  refine ⟨hs, hr, ?_, ?_⟩
  · intro h' hh
    rw [hs] at hh
    cases hh
    exact Has_not_object h j key hj
  · rw [hr]
    exact Has_not_object h j key hj

/-- `Set` and `Remove` on a wrapper over the array `["a"]`. -/
theorem Set_Remove_noop_on_non_object_witness :
    kindOf (⟨.array (some [.string "a"])⟩ : Json).data ≠ .object ∧
    (Set (fun _ => []) ⟨.array (some [.string "a"])⟩ "k" (.bool true) = some (fun _ => []) ∧
      Remove (fun _ => []) ⟨.array (some [.string "a"])⟩ "k" = (fun _ => []) ∧
      (∀ h', Set (fun _ => []) ⟨.array (some [.string "a"])⟩ "k" (.bool true) = some h' →
        Has h' ⟨.array (some [.string "a"])⟩ "k" = false) ∧
      Has (Remove (fun _ => []) ⟨.array (some [.string "a"])⟩ "k") ⟨.array (some [.string "a"])⟩ "k" = false) :=
  ⟨by decide, Set_Remove_noop_on_non_object _ _ _ _ (by decide)⟩

/-! ## Further lemmas on map objects -/

theorem GoMap.lookup_erase_of_ne (m : GoMap) (key key2 : String) (hne : key2 ≠ key) :
    GoMap.lookup (GoMap.erase m key) key2 = GoMap.lookup m key2 := by
  induction m with
  | nil => rfl
  | cons e rest ih =>
    obtain ⟨k, v⟩ := e
    have ih2 : GoMap.lookup (List.filter (fun e => e.1 != key) rest) key2 =
        GoMap.lookup rest key2 := ih
    by_cases hk : k = key
    · subst hk
      simp only [GoMap.erase, List.filter_cons, bne_self_eq_false]
      rw [GoMap.lookup_cons, if_neg hne]
      exact ih2
    · have hb : (k != key) = true := by simpa using hk
      simp only [GoMap.erase, List.filter_cons, hb, if_true]
      rw [GoMap.lookup_cons, GoMap.lookup_cons, ih2]

theorem GoMap.lookup_insert_of_ne (m : GoMap) (key key2 : String) (val : Value)
    (hne : key2 ≠ key) :
    GoMap.lookup (GoMap.insert m key val) key2 = GoMap.lookup m key2 := by
  unfold GoMap.insert
  rw [GoMap.lookup_cons, if_neg hne, GoMap.lookup_erase_of_ne m key key2 hne]

theorem GoMap.erase_of_not_mem (m : GoMap) (key : String) (hk : key ∉ GoMap.keys m) :
    GoMap.erase m key = m := by
  unfold GoMap.erase
  rw [List.filter_eq_self]
  intro e he
  have : e.1 ∈ GoMap.keys m := List.mem_map_of_mem Prod.fst he
  have hne : e.1 ≠ key := fun hh => hk (hh ▸ this)
  simpa using hne

theorem GoMap.erase_erase (m : GoMap) (key : String) :
    GoMap.erase (GoMap.erase m key) key = GoMap.erase m key := by
  simp [GoMap.erase, List.filter_filter]

theorem GoMap.erase_insert (m : GoMap) (key : String) (val : Value) :
    GoMap.erase (GoMap.insert m key val) key = GoMap.erase m key := by
  have h1 : GoMap.erase ((key, val) :: GoMap.erase m key) key =
      GoMap.erase (GoMap.erase m key) key := by
    simp [GoMap.erase, List.filter_cons]
  unfold GoMap.insert
  rw [h1, GoMap.erase_erase]

theorem stringArrayLoop_strings (ss retArr : List String) :
    stringArrayLoop (ss.map Value.string) retArr = some (retArr ++ ss) := by
  induction ss generalizing retArr with
  | nil => simp [stringArrayLoop]
  | cons s rest ih =>
    simp [stringArrayLoop, ih]

theorem getChain_null (h : Heap) (keys : List String) :
    getChain h ⟨.null⟩ keys = ⟨.null⟩ := by
  induction keys with
  | nil => rfl
  | cons k rest ih =>
    have hk : Get h ⟨.null⟩ k = ⟨.null⟩ := Get_not_object h ⟨.null⟩ k (by decide)
    simpa [getChain, hk] using ih

/-! ## String arrays -/

/-- C11. On a wrapper over an array all of whose elements are strings,
`StringArray` returns those strings, as many and in the same order, with a
`nil` error; so it does on the empty array.  On a wrapper whose data is not an
array it returns `nil` with the error of `Array`, the `TypeMismatchError` of
the array assertion.  On the `nil` slice, an array without elements, it
returns the empty sequence. -/
theorem StringArray_of_strings_or_non_array (ss : List String) (j : Json) :
    Json.StringArray ⟨.array (some (ss.map Value.string))⟩ = (some ss, none) ∧
    Json.StringArray ⟨.array (some [])⟩ = (some [], none) ∧
    (kindOf j.data ≠ .array →
      j.StringArray = (none, some (errors.New "type assertion to []interface{} failed")) ∧
      (j.StringArray).2 = (j.Array).2 ∧
      IsTypeMismatchError (errors.New "type assertion to []interface{} failed")) ∧
    Json.StringArray ⟨.array none⟩ = (some [], none) := by
  refine ⟨?_, rfl, fun hj => ?_, rfl⟩
  · simp [Json.StringArray, Json.Array, stringArrayLoop_strings]
  · obtain ⟨d⟩ := j
    refine ⟨?_, ?_, by decide⟩ <;>
      cases d <;> simp_all [Json.StringArray, Json.Array, kindOf, errors.New]

/-- The array `["a","b"]` gives `["a","b"]`; the string "a" gives the error of
the array assertion. -/
theorem StringArray_of_strings_or_non_array_witness :
    Json.StringArray ⟨.array (some [.string "a", .string "b"])⟩ = (some ["a", "b"], none) ∧
    Json.StringArray ⟨.string "a"⟩ =
      (none, some (errors.New "type assertion to []interface{} failed")) :=
  ⟨(StringArray_of_strings_or_non_array ["a", "b"] ⟨.null⟩).1,
   ((StringArray_of_strings_or_non_array [] ⟨.string "a"⟩).2.2.1 (by decide)).1⟩

/-! ## Frame of `Set` and `Remove` -/

/-- C19 as stated fails on the typed `nil` map, which is an object for `Map()`
and holds no key: `Set` of the fresh key "k" panics on it, so no `Remove`
follows and nothing gives back the object. -/
theorem Remove_after_Set_nil_map_counterexample :
    (Json.Map ⟨.map none⟩).2 = none ∧
    Has (fun _ => []) ⟨.map none⟩ "k" = false ∧
    Set (fun _ => []) ⟨.map none⟩ "k" (.number "1") = none ∧
    ¬ ∃ h1, Set (fun _ => []) ⟨.map none⟩ "k" (.number "1") = some h1 ∧
      Remove h1 ⟨.map none⟩ "k" = (fun _ => []) := by
  refine ⟨rfl, rfl, rfl, ?_⟩
  rintro ⟨h1, hs, _⟩
  cases hs

/-- C19, amended. On a wrapper whose data is an object other than the `nil`
map and does not hold `key`, `Set` of `key` does not panic and `Remove` of
`key` after it gives back the heap it started from, so the object has exactly
the entries it had.  On every wrapper and for every key, held or not, `Remove`
twice leaves the heap `Remove` once leaves. -/
theorem Remove_after_Set_fresh_key (h : Heap) (j : Json) (key : String) (val : Value) :
    (∀ a, j.data = .map (some a) → key ∉ GoMap.keys (h a) →
      ∃ h1, Set h j key val = some h1 ∧ Remove h1 j key = h ∧ Remove h1 j key a = h a) ∧
    Remove (Remove h j key) j key = Remove h j key := by
  obtain ⟨d⟩ := j
  constructor
  · rintro a rfl hk
    have hback : Remove (Function.update h a (GoMap.insert (h a) key val))
        ⟨.map (some a)⟩ key = h := by
      rw [Remove_map, Function.update_same, GoMap.erase_insert,
        GoMap.erase_of_not_mem _ _ hk, Function.update_idem, Function.update_eq_self]
    exact ⟨_, Set_map h a key val, hback, by rw [hback]⟩
  · cases d with
    | map m =>
      cases m with
      | none => rfl
      | some a =>
        rw [Remove_map, Remove_map, Function.update_same, GoMap.erase_erase,
          Function.update_idem]
    | _ =>
      rw [Remove_not_object h _ key (by simp [kindOf])]
      exact Remove_not_object h _ key (by simp [kindOf])

/-- `Set` then `Remove` of the fresh key "b" on the object with "a" bound to
1, and `Remove` twice of the key "a" it holds. -/
theorem Remove_after_Set_fresh_key_witness :
    (∃ h1, Set (fun _ => [("a", .number "1")]) ⟨.map (some 0)⟩ "b" (.bool true) = some h1 ∧
      Remove h1 ⟨.map (some 0)⟩ "b" = (fun _ => [("a", .number "1")]) ∧
      Remove h1 ⟨.map (some 0)⟩ "b" 0 = [("a", .number "1")]) ∧
    Remove (Remove (fun _ => [("a", .number "1")]) ⟨.map (some 0)⟩ "a") ⟨.map (some 0)⟩ "a" =
      Remove (fun _ => [("a", .number "1")]) ⟨.map (some 0)⟩ "a" :=
  ⟨(Remove_after_Set_fresh_key (fun _ => [("a", .number "1")]) ⟨.map (some 0)⟩ "b"
      (.bool true)).1 0 rfl (by decide),
    (Remove_after_Set_fresh_key (fun _ => [("a", .number "1")]) ⟨.map (some 0)⟩ "a"
      (.bool true)).2⟩

/-! ## Chained navigation -/

/-- C18. From a wrapper whose data is not an object, the chain
`Get(k1)...Get(kn)` over any non-empty list of keys is the wrapper over `nil`,
and each of `Map`, `Array`, `Bool`, `String` and `StringArray` on it returns a
`TypeMismatchError`.  The same holds below a missing key: when `Has` is false
for `key` on any wrapper, the chain through `key` and any further keys is the
wrapper over `nil`, on which `Bool` returns its `TypeMismatchError`. -/
theorem getChain_from_non_object (h : Heap) (j : Json) (keys : List String)
    (hj : kindOf j.data ≠ .object) (hkeys : keys ≠ []) :
    getChain h j keys = ⟨.null⟩ ∧
    ((∃ e, (getChain h j keys).Map = (none, some e) ∧ IsTypeMismatchError e) ∧
      (∃ e, (getChain h j keys).Array = (none, some e) ∧ IsTypeMismatchError e) ∧
      (∃ e, (getChain h j keys).Bool = (false, some e) ∧ IsTypeMismatchError e) ∧
      (∃ e, (getChain h j keys).String = ("", some e) ∧ IsTypeMismatchError e) ∧
      (∃ e, (getChain h j keys).StringArray = (none, some e) ∧ IsTypeMismatchError e)) ∧
    (∀ (j2 : Json) (key : String) (rest : List String), Has h j2 key = false →
      getChain h j2 (key :: rest) = ⟨.null⟩ ∧
      ∃ e, (getChain h j2 (key :: rest)).Bool = (false, some e) ∧ IsTypeMismatchError e) := by
  have hchain : getChain h j keys = ⟨.null⟩ := by
    cases keys with
    | nil => exact absurd rfl hkeys
    | cons k rest =>
      have hk : Get h j k = ⟨.null⟩ := Get_not_object h j k hj
      have hr := getChain_null h rest
      simpa [getChain, hk] using hr
  refine ⟨hchain, ?_, fun j2 key rest hhas => ?_⟩
  · rw [hchain]
    exact ⟨⟨_, rfl, by decide⟩, ⟨_, rfl, by decide⟩, ⟨_, rfl, by decide⟩, ⟨_, rfl, by decide⟩,
      ⟨_, rfl, by decide⟩⟩
  · have hc : getChain h j2 (key :: rest) = ⟨.null⟩ := by
      have hk : Get h j2 key = ⟨.null⟩ := Get_of_not_Has h j2 key hhas
      have hr := getChain_null h rest
      simpa [getChain, hk] using hr
    rw [hc]
    exact ⟨rfl, _, rfl, by decide⟩

/-- The chain "user", "missing" from a wrapper over the string "x". -/
theorem getChain_from_non_object_witness :
    kindOf (⟨.string "x"⟩ : Json).data ≠ .object ∧ ["user", "missing"] ≠ [] ∧
    getChain (fun _ => []) ⟨.string "x"⟩ ["user", "missing"] = ⟨.null⟩ :=
  ⟨by decide, by decide,
    (getChain_from_non_object (fun _ => []) ⟨.string "x"⟩ ["user", "missing"]
      (by decide) (by decide)).1⟩

/-! ## The two error kinds -/

/-- C20. For every key, the error a combinator builds from the key and
"not existed" differs from each of the four errors of the type assertions, in
its message and so as an error, and the four assertion messages differ from one
another. -/
theorem error_kinds_distinct (key : String) :
    (key ++ "not existed" ≠ "type assertion to map[string]interface{} failed" ∧
      key ++ "not existed" ≠ "type assertion to []interface{} failed" ∧
      key ++ "not existed" ≠ "type assertion to bool failed" ∧
      key ++ "not existed" ≠ "type assertion to string failed") ∧
    (∀ msg ∈ typeMismatchMessages, errors.New (key ++ "not existed") ≠ errors.New msg) ∧
    typeMismatchMessages = ["type assertion to map[string]interface{} failed",
      "type assertion to []interface{} failed", "type assertion to bool failed",
      "type assertion to string failed"] ∧
    typeMismatchMessages.Nodup := by
  have hall : ∀ msg ∈ typeMismatchMessages, key ++ "not existed" ≠ msg := by
    intro msg hmsg heq
    have h1 : IsKeyNotFoundError (errors.New msg) := by
      rw [← heq]
      exact isKeyNotFoundError_new key
    exact typeMismatch_not_keyNotFound (errors.New msg) hmsg h1
  refine ⟨⟨hall _ (by decide), hall _ (by decide), hall _ (by decide), hall _ (by decide)⟩,
    fun msg hmsg heq => ?_, rfl, by decide⟩
  exact hall msg hmsg (congrArg GoError.msg heq)

/-- The error kinds at the key "type assertion to string failed" and at the
empty key. -/
theorem error_kinds_distinct_witness :
    errors.New ("type assertion to string failed" ++ "not existed") ≠
      errors.New "type assertion to string failed" ∧
    errors.New ("" ++ "not existed") ≠ errors.New "type assertion to bool failed" :=
  ⟨(error_kinds_distinct "type assertion to string failed").2.1 _ (by decide),
   (error_kinds_distinct "").2.1 _ (by decide)⟩

/-! ## Views -/

/-- C12 as stated fails in two cases.  First, the value at "k" is the typed
`nil` map, itself an object for `Map()`: `c := j.Get("k")` wraps it and
`c.Set("k2", true)` panics.  Second, map object 0 holds itself at "k":
`c := j.Get("k")` is a wrapper over the same object, and `c.Set("k", true)`
overwrites the very entry `j.Get("k")` reads; afterwards `j.Get("k")` is the
wrapper over `true`, on which `Has("k")` is false and `Get("k")` is the wrapper
over `nil`, not over `true`. -/
theorem view_Set_counterexample :
    ((⟨.map (some 0)⟩ : Json).data = .map (some 0) ∧
      GoMap.lookup ((fun _ => [("k", .map none)] : Heap) 0) "k" = some (.map none) ∧
      (Json.Map ⟨.map none⟩).2 = none ∧
      Get (fun _ => [("k", .map none)]) ⟨.map (some 0)⟩ "k" = ⟨.map none⟩ ∧
      Set (fun _ => [("k", .map none)]) (Get (fun _ => [("k", .map none)]) ⟨.map (some 0)⟩ "k")
        "k2" (.bool true) = none) ∧
    (GoMap.lookup ((fun _ => [("k", .map (some 0))] : Heap) 0) "k" = some (.map (some 0)) ∧
      ∃ h', Set (fun _ => [("k", .map (some 0))])
          (Get (fun _ => [("k", .map (some 0))]) ⟨.map (some 0)⟩ "k") "k" (.bool true)
          = some h' ∧
        Get h' ⟨.map (some 0)⟩ "k" = ⟨.bool true⟩ ∧
        Has h' (Get h' ⟨.map (some 0)⟩ "k") "k" = false ∧
        Get h' (Get h' ⟨.map (some 0)⟩ "k") "k" = ⟨.null⟩) := by
  have hg : Get (Function.update (fun _ => [("k", .map (some 0))] : Heap) 0
      (GoMap.insert [("k", .map (some 0))] "k" (.bool true))) ⟨.map (some 0)⟩ "k"
      = ⟨.bool true⟩ := by
    rw [Get_map]; rfl
  refine ⟨⟨rfl, rfl, rfl, rfl, rfl⟩, rfl, _, Set_map _ 0 "k" (.bool true), hg, ?_, ?_⟩
  · rw [hg]
    exact Has_not_object _ _ _ (by decide)
  · rw [hg]
    exact Get_not_object _ _ _ (by decide)

/-- C12, amended. Let the data of `j` be an object that holds at `key` a
value that is itself an object, and let `c` be `Get` of `key`.  Then `c` wraps
that same object.  When that object is not the `nil` map, and is not the
object of `j` itself or `key2` differs from `key`, `Set` of `key2` to `val`
through `c` does not panic, and afterwards `Get` of `key` on `j` has `key2` and
holds `val` there.  After `Remove` of `key2` through `c`, `Has` of `key2` on
`Get` of `key` is false, in every case. -/
theorem view_through_Get (h : Heap) (j : Json) (a : Addr) (mb : Option Addr)
    (key key2 : String) (val : Value) (hj : j.data = .map (some a))
    (hc : GoMap.lookup (h a) key = some (.map mb)) :
    Get h j key = ⟨.map mb⟩ ∧
    (∀ b, mb = some b → (b ≠ a ∨ key2 ≠ key) →
      ∃ h', Set h (Get h j key) key2 val = some h' ∧
        Has h' (Get h' j key) key2 = true ∧ Get h' (Get h' j key) key2 = ⟨val⟩) ∧
    Has (Remove h (Get h j key) key2) (Get (Remove h (Get h j key) key2) j key) key2
      = false := by
  obtain ⟨d⟩ := j
  subst hj
  have hget : Get h ⟨.map (some a)⟩ key = ⟨.map mb⟩ := by rw [Get_map, hc]; rfl
  rw [hget]
  refine ⟨rfl, ?_, ?_⟩
  · rintro b rfl hcond
    refine ⟨_, Set_map h b key2 val, ?_⟩
    have hparent : Get (Function.update h b (GoMap.insert (h b) key2 val))
        ⟨.map (some a)⟩ key = ⟨.map (some b)⟩ := by
      rw [Get_map]
      by_cases hba : b = a
      · subst hba
        have hne : key2 ≠ key := by
          rcases hcond with hh | hh
          · exact absurd rfl hh
          · exact hh
        rw [Function.update_same, GoMap.lookup_insert_of_ne _ _ _ _ (Ne.symm hne), hc]
        rfl
      · rw [Function.update_noteq (Ne.symm hba), hc]
        rfl
    rw [hparent, Has_map, Get_map, Function.update_same, GoMap.lookup_insert_self]
    exact ⟨rfl, rfl⟩
  · cases mb with
    | none =>
      rw [Remove_nil_map, hget]
      rfl
    | some b =>
      rw [Remove_map]
      by_cases hba : b = a
      · subst hba
        by_cases hkk : key2 = key
        · subst hkk
          apply Has_not_object
          rw [Get_map, Function.update_same, GoMap.lookup_erase_self]
          decide
        · have hparent : Get (Function.update h b (GoMap.erase (h b) key2))
              ⟨.map (some b)⟩ key = ⟨.map (some b)⟩ := by
            rw [Get_map, Function.update_same,
              GoMap.lookup_erase_of_ne _ _ _ (Ne.symm hkk), hc]
            rfl
          rw [hparent, Has_map, Function.update_same, GoMap.lookup_erase_self]
          rfl
      · have hparent : Get (Function.update h b (GoMap.erase (h b) key2))
            ⟨.map (some a)⟩ key = ⟨.map (some b)⟩ := by
          rw [Get_map, Function.update_noteq (Ne.symm hba), hc]
          rfl
        rw [hparent, Has_map, Function.update_same, GoMap.lookup_erase_self]
        rfl

/-- The document with "user" bound to an object: map object 0 holds map
object 1 at "user", and "name" is set through the child. -/
theorem view_through_Get_witness :
    (⟨.map (some 0)⟩ : Json).data = .map (some 0) ∧
    GoMap.lookup ((fun n => if n = 0 then [("user", .map (some 1))] else [] : Heap) 0) "user"
      = some (.map (some 1)) ∧
    (∃ h', Set (fun n => if n = 0 then [("user", .map (some 1))] else [])
        (Get (fun n => if n = 0 then [("user", .map (some 1))] else [])
          ⟨.map (some 0)⟩ "user")
        "name" (.string "Ada") = some h' ∧
      Has h' (Get h' ⟨.map (some 0)⟩ "user") "name" = true ∧
      Get h' (Get h' ⟨.map (some 0)⟩ "user") "name" = ⟨.string "Ada"⟩) :=
  ⟨rfl, rfl,
    (view_through_Get (fun n => if n = 0 then [("user", .map (some 1))] else [])
      ⟨.map (some 0)⟩ 0 (some 1) "user" "name" (.string "Ada") rfl rfl).2.1 1 rfl
      (Or.inl (by decide))⟩

/-! ## The empty document -/

theorem NewJson_follows_decoder (dec : Decoder) (h : Heap) (body : Bytes) :
    (∀ h' data, dec h body .null = (h', data, none) →
      NewJson dec h body = (h', some ⟨data⟩, none)) ∧
    (∀ h' data e, dec h body .null = (h', data, some e) →
      NewJson dec h body = (h', none, some e)) := by
  constructor
  · intro h' data hd
    simp [NewJson, UnmarshalJSON, hd]
  · intro h' data e hd
    simp [NewJson, UnmarshalJSON, hd]


/-- C14. Whenever the decoder decodes the text `{}` into an empty map object
with a `nil` error, `NewEmptyJson` returns a wrapper, not `nil`, whose data is
that object: `Map` on it succeeds, the object has no entries, `Has` is false
for every key, and `Set` on it does not panic and makes `Has` true for its
key. -/
theorem NewEmptyJson_empty_object (dec : Decoder) (h h' : Heap) (a : Addr)
    (hdec : dec h (bytesOf "{}") .null = (h', .map (some a), none)) (hempty : h' a = []) :
    ∃ j, NewEmptyJson dec h = (h', some j) ∧
      j.Map = (some a, none) ∧ (h' a).length = 0 ∧
      (∀ key, Has h' j key = false) ∧
      (∀ key val, ∃ h'', Set h' j key val = some h'' ∧ Has h'' j key = true) := by
  refine ⟨⟨.map (some a)⟩, ?_, rfl, by rw [hempty]; rfl, fun key => ?_, fun key val => ?_⟩
  · simp [NewEmptyJson, NewJson, UnmarshalJSON, hdec]
  · rw [Has_map, hempty]; rfl
  · refine ⟨_, Set_map h' a key val, ?_⟩
    rw [Has_map, Function.update_same, GoMap.lookup_insert_self]
    rfl

/-- A decoder that allocates map object 1 for the text `{}` and rejects every
other buffer. -/
theorem NewEmptyJson_empty_object_witness :
    (fun (h : Heap) (p : Bytes) (_ : Value) =>
        if p = bytesOf "{}" then (Function.update h 1 [], Value.map (some 1), none)
        else (h, Value.null, some (errors.New "unexpected end of JSON input")))
      (fun _ => []) (bytesOf "{}") .null
      = (Function.update (fun _ => []) 1 [], .map (some 1), none) ∧
    Function.update (fun _ => [] : Heap) 1 [] 1 = [] ∧
    ∃ j, NewEmptyJson
        (fun (h : Heap) (p : Bytes) (_ : Value) =>
          if p = bytesOf "{}" then (Function.update h 1 [], Value.map (some 1), none)
          else (h, Value.null, some (errors.New "unexpected end of JSON input")))
        (fun _ => []) = (Function.update (fun _ => []) 1 [], some j) ∧
      j.Map = (some 1, none) ∧ (Function.update (fun _ => [] : Heap) 1 [] 1).length = 0 ∧
      (∀ key, Has (Function.update (fun _ => []) 1 []) j key = false) ∧
      (∀ key val, ∃ h'', Set (Function.update (fun _ => []) 1 []) j key val = some h'' ∧
        Has h'' j key = true) :=
  ⟨rfl, rfl, NewEmptyJson_empty_object _ _ _ 1 rfl rfl⟩

/-! ## What a call leaves behind -/

theorem Body.bind_apply {α β : Type} (x : Body α) (f : α → Body β) (s : State) :
    (x >>= f) s = Body.seq x f s := rfl

theorem Body.pure_apply {α : Type} (a : α) (s : State) :
    (pure a : Body α) s = (some a, s) := rfl

theorem State.alloc_keeps (s : State) (val : Value) :
    (s.alloc val).heap = s.heap ∧ (s.alloc val).structs s.next = val ∧
    ∀ q, q < s.next → (s.alloc val).structs q = s.structs q := by
  refine ⟨rfl, by simp [State.alloc], fun q hq => ?_⟩
  simp [State.alloc, Function.update_noteq (Nat.ne_of_lt hq)]

theorem MapBody_eq (j : Ptr) (s : State) :
    MapBody j s = (some (Json.Map ⟨s.structs j⟩), s) := by
  simp only [MapBody, Body.bind_apply, Body.seq, Body.loadData, Json.Map]
  cases s.structs j <;> rfl

theorem ArrayBody_eq (j : Ptr) (s : State) :
    ArrayBody j s = (some (Json.Array ⟨s.structs j⟩), s) := by
  simp only [ArrayBody, Body.bind_apply, Body.seq, Body.loadData, Json.Array]
  cases s.structs j <;> rfl

theorem BoolBody_eq (j : Ptr) (s : State) :
    BoolBody j s = (some (Json.Bool ⟨s.structs j⟩), s) := by
  simp only [BoolBody, Body.bind_apply, Body.seq, Body.loadData, Json.Bool]
  cases s.structs j <;> rfl

theorem StringBody_eq (j : Ptr) (s : State) :
    StringBody j s = (some (Json.String ⟨s.structs j⟩), s) := by
  simp only [StringBody, Body.bind_apply, Body.seq, Body.loadData, Json.String]
  cases s.structs j <;> rfl

theorem StringArrayBody_eq (j : Ptr) (s : State) :
    StringArrayBody j s = (some (Json.StringArray ⟨s.structs j⟩), s) := by
  simp only [StringArrayBody, Body.bind_apply, Body.seq, ArrayBody_eq, Json.StringArray]
  cases hd : s.structs j with
  | array xs =>
    cases hl : stringArrayLoop (xs.getD []) [] <;> simp [Json.Array, hl, Body.pure_apply]
  | _ => simp [Json.Array, Body.pure_apply, errors.New]

theorem HasBody_eq (j : Ptr) (key : String) (s : State) :
    HasBody j key s = (some (Has s.heap ⟨s.structs j⟩ key), s) := by
  simp only [HasBody, Body.bind_apply, Body.seq, MapBody_eq]
  cases hd : s.structs j with
  | map m =>
    cases m with
    | none => rfl
    | some a =>
      rw [Has_map]
      cases hl : GoMap.lookup (s.heap a) key <;>
        simp [Json.Map, hl, Body.pure_apply, Body.bind_apply, Body.seq, Body.mapRead,
          mapaccess2]
  | _ => simp [Json.Map, Body.pure_apply, errors.New, Has]

theorem GetBody_eq (j : Ptr) (key : String) (s : State) :
    GetBody j key s = (some s.next, s.alloc (Get s.heap ⟨s.structs j⟩ key).data) := by
  simp only [GetBody, Body.bind_apply, Body.seq, MapBody_eq]
  cases hd : s.structs j with
  | map m =>
    cases m with
    | none => rfl
    | some a =>
      rw [Get_map]
      cases hl : GoMap.lookup (s.heap a) key <;>
        simp [Json.Map, hl, Body.bind_apply, Body.seq, Body.mapRead, mapaccess2,
          Body.newJson]
  | _ => simp [Json.Map, errors.New, Get, Body.newJson]

theorem SetBody_eq (j : Ptr) (key : String) (val : Value) (s : State) :
    SetBody j key val s =
      match Set s.heap ⟨s.structs j⟩ key val with
      | some h' => (some (), ⟨h', s.structs, s.next⟩)
      | none => (none, s) := by
  simp only [SetBody, Body.bind_apply, Body.seq, MapBody_eq]
  cases hd : s.structs j with
  | map m => cases m <;> rfl
  | _ => simp [Json.Map, errors.New, Set, Body.pure_apply]

theorem RemoveBody_eq (j : Ptr) (key : String) (s : State) :
    RemoveBody j key s = (some (), ⟨Remove s.heap ⟨s.structs j⟩ key, s.structs, s.next⟩) := by
  simp only [RemoveBody, Body.bind_apply, Body.seq, MapBody_eq]
  cases hd : s.structs j with
  | map m => cases m <;> rfl
  | _ => simp [Json.Map, errors.New, Remove, Body.pure_apply]

theorem GetStringBody_eq (j : Ptr) (key : String) (s : State) :
    GetStringBody j key s = (some (GetString s.heap ⟨s.structs j⟩ key),
      if Has s.heap ⟨s.structs j⟩ key = true
      then s.alloc (Get s.heap ⟨s.structs j⟩ key).data else s) := by
  simp only [GetStringBody, GetString, Body.bind_apply, Body.seq, HasBody_eq]
  cases hh : Has s.heap ⟨s.structs j⟩ key
  · simp [Body.pure_apply]
  · simp [Body.bind_apply, Body.seq, GetBody_eq, StringBody_eq, (State.alloc_keeps s _).2.1]

theorem GetBoolBody_eq (j : Ptr) (key : String) (s : State) :
    GetBoolBody j key s = (some (GetBool s.heap ⟨s.structs j⟩ key),
      if Has s.heap ⟨s.structs j⟩ key = true
      then s.alloc (Get s.heap ⟨s.structs j⟩ key).data else s) := by
  simp only [GetBoolBody, GetBool, Body.bind_apply, Body.seq, HasBody_eq]
  cases hh : Has s.heap ⟨s.structs j⟩ key
  · simp [Body.pure_apply]
  · simp [Body.bind_apply, Body.seq, GetBody_eq, BoolBody_eq, (State.alloc_keeps s _).2.1]

theorem GetArrayBody_eq (j : Ptr) (key : String) (s : State) :
    GetArrayBody j key s = (some (GetArray s.heap ⟨s.structs j⟩ key),
      if Has s.heap ⟨s.structs j⟩ key = true
      then s.alloc (Get s.heap ⟨s.structs j⟩ key).data else s) := by
  simp only [GetArrayBody, GetArray, Body.bind_apply, Body.seq, HasBody_eq]
  cases hh : Has s.heap ⟨s.structs j⟩ key
  · simp [Body.pure_apply]
  · simp [Body.bind_apply, Body.seq, GetBody_eq, ArrayBody_eq, (State.alloc_keeps s _).2.1]

theorem GetMapBody_eq (j : Ptr) (key : String) (s : State) :
    GetMapBody j key s = (some (GetMap s.heap ⟨s.structs j⟩ key),
      if Has s.heap ⟨s.structs j⟩ key = true
      then s.alloc (Get s.heap ⟨s.structs j⟩ key).data else s) := by
  simp only [GetMapBody, GetMap, Body.bind_apply, Body.seq, HasBody_eq]
  cases hh : Has s.heap ⟨s.structs j⟩ key
  · simp [Body.pure_apply]
  · simp [Body.bind_apply, Body.seq, GetBody_eq, MapBody_eq, (State.alloc_keeps s _).2.1]

theorem GetStringArrayBody_eq (j : Ptr) (key : String) (s : State) :
    GetStringArrayBody j key s = (some (GetStringArray s.heap ⟨s.structs j⟩ key),
      if Has s.heap ⟨s.structs j⟩ key = true
      then s.alloc (Get s.heap ⟨s.structs j⟩ key).data else s) := by
  simp only [GetStringArrayBody, GetStringArray, Body.bind_apply, Body.seq, HasBody_eq]
  cases hh : Has s.heap ⟨s.structs j⟩ key
  · simp [Body.pure_apply]
  · simp [Body.bind_apply, Body.seq, GetBody_eq, StringArrayBody_eq, (State.alloc_keeps s _).2.1]

theorem State.keeps_refl (s : State) : State.keeps s s :=
  ⟨rfl, fun _ _ => rfl⟩

theorem State.keeps_alloc (s : State) (val : Value) : State.keeps s (s.alloc val) :=
  ⟨(State.alloc_keeps s val).1, (State.alloc_keeps s val).2.2⟩

theorem State.keeps_ite (s : State) (c : Prop) [Decidable c] (val : Value) :
    State.keeps s (if c then s.alloc val else s) := by
  by_cases hc : c
  · rw [if_pos hc]; exact State.keeps_alloc s val
  · rw [if_neg hc]; exact State.keeps_refl s

/-- C13. Let `j` point to an allocated `Json` struct.  No body changes the
field `data` of `j`, so the kind of the data is what it was.  The bodies of
`Map`, `Array`, `Bool`, `String`, `StringArray` and `Has` return, with the
results the methods give, and leave the whole state as it was, whether the
error they return is `nil` or not.  The bodies of `Get` and of the five
combinators return, with the results the methods give, and keep every map
object and every allocated struct as it was: all they do to the state is
allocate the wrapper `Get` returns.  The bodies of `Set` and `Remove` change no
struct; they leave the state as it was when the data is not an object; on the
`nil` map `Remove` does so too and `Set` panics before it writes; on any other
object they write the one entry into the map object the data refers to. -/
theorem data_kind_never_changes (s : State) (j : Ptr) (key : String) (val : Value)
    (hj : j < s.next) :
    (MapBody j s = (some (Json.Map ⟨s.structs j⟩), s) ∧
      ArrayBody j s = (some (Json.Array ⟨s.structs j⟩), s) ∧
      BoolBody j s = (some (Json.Bool ⟨s.structs j⟩), s) ∧
      StringBody j s = (some (Json.String ⟨s.structs j⟩), s) ∧
      StringArrayBody j s = (some (Json.StringArray ⟨s.structs j⟩), s) ∧
      HasBody j key s = (some (Has s.heap ⟨s.structs j⟩ key), s)) ∧
    (GetBody j key s = (some s.next, s.alloc (Get s.heap ⟨s.structs j⟩ key).data) ∧
      (GetStringBody j key s).1 = some (GetString s.heap ⟨s.structs j⟩ key) ∧
      (GetBoolBody j key s).1 = some (GetBool s.heap ⟨s.structs j⟩ key) ∧
      (GetArrayBody j key s).1 = some (GetArray s.heap ⟨s.structs j⟩ key) ∧
      (GetMapBody j key s).1 = some (GetMap s.heap ⟨s.structs j⟩ key) ∧
      (GetStringArrayBody j key s).1 = some (GetStringArray s.heap ⟨s.structs j⟩ key)) ∧
    (State.keeps s (GetBody j key s).2 ∧ State.keeps s (GetStringBody j key s).2 ∧
      State.keeps s (GetBoolBody j key s).2 ∧ State.keeps s (GetArrayBody j key s).2 ∧
      State.keeps s (GetMapBody j key s).2 ∧ State.keeps s (GetStringArrayBody j key s).2) ∧
    ((GetBody j key s).2.structs j = s.structs j ∧
      (GetStringBody j key s).2.structs j = s.structs j ∧
      (GetBoolBody j key s).2.structs j = s.structs j ∧
      (GetArrayBody j key s).2.structs j = s.structs j ∧
      (GetMapBody j key s).2.structs j = s.structs j ∧
      (GetStringArrayBody j key s).2.structs j = s.structs j) ∧
    ((SetBody j key val s).2.structs = s.structs ∧
      (RemoveBody j key s).2.structs = s.structs ∧
      kindOf ((SetBody j key val s).2.structs j) = kindOf (s.structs j) ∧
      kindOf ((RemoveBody j key s).2.structs j) = kindOf (s.structs j)) ∧
    (kindOf (s.structs j) ≠ .object →
      SetBody j key val s = (some (), s) ∧ RemoveBody j key s = (some (), s)) ∧
    (s.structs j = .map none →
      SetBody j key val s = (none, s) ∧ RemoveBody j key s = (some (), s)) ∧
    (∀ a, s.structs j = .map (some a) →
      SetBody j key val s =
        (some (), ⟨Function.update s.heap a (GoMap.insert (s.heap a) key val),
          s.structs, s.next⟩) ∧
      RemoveBody j key s =
        (some (), ⟨Function.update s.heap a (GoMap.erase (s.heap a) key),
          s.structs, s.next⟩)) := by
  have hkeep : State.keeps s (GetBody j key s).2 ∧ State.keeps s (GetStringBody j key s).2 ∧
      State.keeps s (GetBoolBody j key s).2 ∧ State.keeps s (GetArrayBody j key s).2 ∧
      State.keeps s (GetMapBody j key s).2 ∧
      State.keeps s (GetStringArrayBody j key s).2 := by
    rw [GetBody_eq, GetStringBody_eq, GetBoolBody_eq, GetArrayBody_eq, GetMapBody_eq,
      GetStringArrayBody_eq]
    exact ⟨State.keeps_alloc s _, State.keeps_ite s _ _, State.keeps_ite s _ _,
      State.keeps_ite s _ _, State.keeps_ite s _ _, State.keeps_ite s _ _⟩
  have hset : (SetBody j key val s).2.structs = s.structs := by
    rw [SetBody_eq]
    cases Set s.heap ⟨s.structs j⟩ key val <;> rfl
  have hrem : (RemoveBody j key s).2.structs = s.structs := by rw [RemoveBody_eq]
  refine ⟨⟨MapBody_eq j s, ArrayBody_eq j s, BoolBody_eq j s, StringBody_eq j s,
      StringArrayBody_eq j s, HasBody_eq j key s⟩,
    ⟨GetBody_eq j key s, by rw [GetStringBody_eq], by rw [GetBoolBody_eq],
      by rw [GetArrayBody_eq], by rw [GetMapBody_eq], by rw [GetStringArrayBody_eq]⟩,
    hkeep,
    ⟨hkeep.1.2 j hj, hkeep.2.1.2 j hj, hkeep.2.2.1.2 j hj, hkeep.2.2.2.1.2 j hj,
      hkeep.2.2.2.2.1.2 j hj, hkeep.2.2.2.2.2.2 j hj⟩,
    ⟨hset, hrem, by rw [hset], by rw [hrem]⟩, ?_, ?_, ?_⟩
  · intro hk
    rw [SetBody_eq, RemoveBody_eq, Set_not_object s.heap ⟨s.structs j⟩ key val hk,
      Remove_not_object s.heap ⟨s.structs j⟩ key hk]
    exact ⟨rfl, rfl⟩
  · intro hd
    rw [SetBody_eq, RemoveBody_eq, hd]
    exact ⟨rfl, rfl⟩
  · intro a hd
    rw [SetBody_eq, RemoveBody_eq, hd, Set_map, Remove_map]
    exact ⟨rfl, rfl⟩

/-- The struct at pointer 0 wraps map object 0, which binds "a" to 1: the
bodies of `Get`, `GetString` and `Set` run on it. -/
theorem data_kind_never_changes_witness :
    (0 : Ptr) < (⟨fun _ => [("a", .number "1")], fun _ => .map (some 0), 1⟩ : State).next ∧
    GetBody 0 "a" ⟨fun _ => [("a", .number "1")], fun _ => .map (some 0), 1⟩
      = (some 1, State.alloc ⟨fun _ => [("a", .number "1")], fun _ => .map (some 0), 1⟩
          (.number "1")) ∧
    (GetStringBody 0 "a" ⟨fun _ => [("a", .number "1")], fun _ => .map (some 0), 1⟩).2.structs 0
      = .map (some 0) ∧
    (SetBody 0 "b" (.bool true)
      ⟨fun _ => [("a", .number "1")], fun _ => .map (some 0), 1⟩).2.structs
      = (fun _ => .map (some 0)) :=
  ⟨by decide,
   (data_kind_never_changes ⟨fun _ => [("a", .number "1")], fun _ => .map (some 0), 1⟩
      0 "a" .null (by decide)).2.1.1,
   (data_kind_never_changes ⟨fun _ => [("a", .number "1")], fun _ => .map (some 0), 1⟩
      0 "a" .null (by decide)).2.2.2.1.2.1,
   (data_kind_never_changes ⟨fun _ => [("a", .number "1")], fun _ => .map (some 0), 1⟩
      0 "b" (.bool true) (by decide)).2.2.2.2.1.1⟩

end SimpleJson
